import Mathlib

/-!
# Verification of the vizor polygon editor and viewer logic

A shallow embedding, in Lean 4, of the interactive polygon editor
(`PolygonEditor` in `src/app/components/FilterBar.tsx`), the shared color
utilities (`src/app/utils/colors.ts`, duplicated in `src/unnamed/part_005`),
the aggregate floor color resolver (`src/app/components/BuildingFloorSelector.tsx`),
the viewer click-eligibility logic (`src/app/components/InteractiveFloorPlan.tsx`),
and the `save-polygons` action (`src/unnamed/part_007`).

Numbers are modelled as exact rationals (`ℚ`); JavaScript strings as Lean
`String`/`List Char`.  Stateful React components are modelled as pure state
transition functions on an explicit state record.
-/

namespace Vizor

/-! ## Geometry core -/

/-- A 2D point in normalized [0,1]×[0,1] polygon space (`PolygonPoint`). -/
structure Point where
  x : ℚ
  y : ℚ
deriving DecidableEq, Repr

instance : Inhabited Point := ⟨⟨0, 0⟩⟩

/-- Squared Euclidean distance between two points.  The source computes
`Math.sqrt((pt.x-first.x)^2 + (pt.y-first.y)^2)` and compares it with `0.02`;
since the square root is monotone and both sides are nonnegative, the source
test `dist < 0.02` is exactly `distSq < 0.02^2`, which is how we embed it. -/
def distSq (a b : Point) : ℚ :=
  (a.x - b.x) * (a.x - b.x) + (a.y - b.y) * (a.y - b.y)

/-- The polygon-closing threshold of the editor: normalized distance `0.02`,
kept in squared form (`0.02 * 0.02 = 1/2500`). -/
def closeThresholdSq : ℚ := (2 / 100) * (2 / 100)

/-! ## Polygon editor data model (`PolygonEditor` component state) -/

/-- A drawn polygon: linked entity id (`apartmentId`, empty = unlinked) plus
its ordered normalized vertex list (`points`). -/
structure DrawnPolygon where
  apartmentId : String
  points : List Point
deriving DecidableEq, Repr

/-- The editor mode (`type EditorMode = "draw" | "edit" | "select"`). -/
inductive EditorMode where
  | draw
  | edit
  | select
deriving DecidableEq, Repr

/-- The session-local state of the `PolygonEditor` component, collecting the
`useState` hooks that the event handlers read and write. -/
structure EditorState where
  mode : EditorMode
  currentPoints : List Point
  selectedPolygonIdx : Option ℕ
  polygons : List DrawnPolygon
  zoom : ℚ
  pan : Point
  spaceHeld : Bool
  isPanning : Bool
  draggingVertex : Option (ℕ × ℕ)
deriving DecidableEq, Repr

/-- `handleSvgClick` of `PolygonEditor`, as a pure transition on the editor
state.  `pt` is the already-normalized click position
(`screenToNormalized(e.clientX, e.clientY)` in the source).  While drawing,
a click within the closing threshold of the first buffered point (with at
least 3 points buffered) commits the buffer as a new polygon; otherwise the
click appends a vertex. -/
def handleSvgClick (s : EditorState) (pt : Point) : EditorState :=
  if s.spaceHeld || s.isPanning then s
  else if s.mode ≠ EditorMode.draw then s
  else if 3 ≤ s.currentPoints.length then
    let first := s.currentPoints.headI
    if distSq pt first < closeThresholdSq then
      { s with
        polygons := s.polygons ++ [⟨"", s.currentPoints⟩]
        currentPoints := []
        selectedPolygonIdx := some s.polygons.length
        mode := EditorMode.select }
    else
      { s with currentPoints := s.currentPoints ++ [pt] }
  else
    { s with currentPoints := s.currentPoints ++ [pt] }

/-- A concrete drawing state used to exercise the handlers on explicit
inputs: draw mode, three buffered points of a square starting at (0.1, 0.1). -/
def drawState3 : EditorState :=
  { mode := EditorMode.draw
    currentPoints := [⟨1/10, 1/10⟩, ⟨1/10, 3/10⟩, ⟨3/10, 3/10⟩]
    selectedPolygonIdx := none
    polygons := []
    zoom := 1
    pan := ⟨0, 0⟩
    spaceHeld := false
    isPanning := false
    draggingVertex := none }

/-- A click at exact normalized distance 0.021 from `drawState3`'s first
buffered point (0.1, 0.1). -/
def pt021 : Point := ⟨1/10 + 21/1000, 1/10⟩

/-! ## Color utilities (`src/app/utils/colors.ts`, duplicated in
`src/unnamed/part_005`)

JavaScript strings are modelled as `String`/`List Char`; the numeric `alpha`
argument is modelled by its string rendering (`alphaStr`), since the source
only ever interpolates it into the output template. -/

/-- Whitespace for the purposes of `String.prototype.trim` / `parseInt`
(ASCII whitespace; the source never meets exotic Unicode spaces). -/
def jsWhitespace (c : Char) : Bool :=
  c = ' ' || c = '\t' || c = '\n' || c = '\r' || c = '\x0b' || c = '\x0c'

/-- `String.prototype.trim` on a character list. -/
def jsTrim (cs : List Char) : List Char :=
  ((cs.dropWhile jsWhitespace).reverse.dropWhile jsWhitespace).reverse

/-- Value of a hexadecimal digit, `none` for a non-digit. -/
def hexDigitVal (c : Char) : Option ℕ :=
  if '0' ≤ c ∧ c ≤ '9' then some (c.toNat - '0'.toNat)
  else if 'a' ≤ c ∧ c ≤ 'f' then some (c.toNat - 'a'.toNat + 10)
  else if 'A' ≤ c ∧ c ≤ 'F' then some (c.toNat - 'A'.toNat + 10)
  else none

/-- Value of a decimal digit, `none` for a non-digit. -/
def decDigitVal (c : Char) : Option ℕ :=
  if '0' ≤ c ∧ c ≤ '9' then some (c.toNat - '0'.toNat) else none

/-- JavaScript `parseInt(s, base)`: skip leading whitespace, optional sign,
optionally a `0x`/`0X` mark (radix 16 only), then the longest run of valid
digits; `none` models `NaN` (no digit found).  Exact for results below
`2 ^ 53`, where the JS double is exact — all inputs considered here are far
below that. -/
def jsParseInt (digitVal : Char → Option ℕ) (base : ℕ) (skipHexMark : Bool)
    (cs : List Char) : Option ℤ :=
  let cs1 := cs.dropWhile jsWhitespace
  let signed : ℤ × List Char :=
    match cs1 with
    | '-' :: rest => (-1, rest)
    | '+' :: rest => (1, rest)
    | _ => (1, cs1)
  let cs3 :=
    if skipHexMark then
      match signed.2 with
      | '0' :: 'x' :: rest => rest
      | '0' :: 'X' :: rest => rest
      | _ => signed.2
    else signed.2
  let digits := cs3.takeWhile (fun c => (digitVal c).isSome)
  if digits = [] then none
  else
    some (signed.1 *
      ((digits.foldl (fun acc c => acc * base + (digitVal c).getD 0) 0 : ℕ) : ℤ))

/-- `parseInt(s, 16)`. -/
def jsParseIntHex (cs : List Char) : Option ℤ :=
  jsParseInt hexDigitVal 16 true cs

/-- `parseInt(s, 10)`. -/
def jsParseIntDec (cs : List Char) : Option ℤ :=
  jsParseInt decDigitVal 10 false cs

/-- `clean.split("").map(ch => ch + ch).join("")`: double every character of
a 3-digit hex shorthand. -/
def doubleChars (cs : List Char) : List Char :=
  cs.foldr (fun c acc => c :: c :: acc) []

/-- Case-insensitive character comparison (the `/i` regex flag). -/
def ciEq (a b : Char) : Bool := a.toLower = b.toLower

/-- Match `\(([^)]+)\)` at the start of `cs`: an opening parenthesis, at
least one non-`)` character (captured), then a closing parenthesis. -/
def matchParenCapture : List Char → Option (List Char)
  | '(' :: rest =>
    let inner := rest.takeWhile (fun c => c ≠ ')')
    if inner = [] then none
    else if (rest.drop inner.length).head? = some ')' then some inner
    else none
  | _ => none

/-- Match the regex `rgba?\(([^)]+)\)` (case-insensitive) at the start of
`cs`, returning the captured group. -/
def matchRgbAt (cs : List Char) : Option (List Char) :=
  match cs with
  | c1 :: c2 :: c3 :: rest =>
    if ciEq c1 'r' && ciEq c2 'g' && ciEq c3 'b' then
      match rest with
      | c4 :: rest2 =>
        if ciEq c4 'a' then matchParenCapture rest2 else matchParenCapture rest
      | [] => none
    else none
  | _ => none

/-- `c.match(/rgba?\(([^)]+)\)/i)`: first match anywhere in the string,
returning the captured group between the parentheses. -/
def findRgb : List Char → Option (List Char)
  | [] => none
  | c :: rest =>
    match matchRgbAt (c :: rest) with
    | some inner => some inner
    | none => findRgb rest

/-- JavaScript `String.prototype.split(",")`: split at every comma, keeping
empty segments. -/
def splitComma : List Char → List (List Char)
  | [] => [[]]
  | c :: rest =>
    if c = ',' then [] :: splitComma rest
    else
      match splitComma rest with
      | h :: t => (c :: h) :: t
      | [] => [[c]]

/-- Assemble the `rgba(r,g,b,alpha)` output template. -/
def rgbaStr (r g b alphaStr : String) : String :=
  "rgba(" ++ r ++ "," ++ g ++ "," ++ b ++ "," ++ alphaStr ++ ")"

/-- `ensureRgba(color, alpha)` from `src/app/utils/colors.ts` (and
`src/unnamed/part_005`).  `none` models a missing (`undefined`) color
argument; the JS falsiness test `!color` also catches the empty string.  The
hex branch follows `parseInt(normalized, 16)` and the 32-bit `>> / &`
arithmetic: `(ToInt32(n) >> k) & 255` equals `(n mod 2^32) >> k & 255`, so we
reduce modulo `4294967296` and extract the three bytes; `NaN` converts to 0.
The rgb branch applies `parseInt(part, 10) || 0` to the first three
comma-separated parts of the captured group (a missing part parses to 0,
exactly as `parseInt(undefined)` is `NaN`). -/
def ensureRgba (color : Option String) (alphaStr : String) : String :=
  match color with
  | none => rgbaStr "0" "0" "0" alphaStr
  | some col =>
    if col = "" then rgbaStr "0" "0" "0" alphaStr
    else
      let c := jsTrim col.toList
      if c.head? = some '#' then
        let clean := c.drop 1
        let normalized := if clean.length = 3 then doubleChars clean else clean
        let u : ℕ :=
          match jsParseIntHex normalized with
          | none => 0
          | some z => (z % 4294967296).toNat
        rgbaStr (toString (u / 65536 % 256)) (toString (u / 256 % 256))
          (toString (u % 256)) alphaStr
      else
        match findRgb c with
        | some inner =>
          let parts := (splitComma inner).map jsTrim
          let r := (jsParseIntDec (parts.getD 0 [])).getD 0
          let g := (jsParseIntDec (parts.getD 1 [])).getD 0
          let b := (jsParseIntDec (parts.getD 2 [])).getD 0
          rgbaStr (toString r) (toString g) (toString b) alphaStr
        | none => String.mk c

/-! ## Status-color configuration and resolvers -/

/-- The per-deployment status color overrides (each field optional,
mirroring `colors: { available?, reserved?, sold?, unavailable? }`). -/
structure StatusColors where
  available : Option String
  reserved : Option String
  sold : Option String
  unavailable : Option String
deriving DecidableEq, Repr

/-- JavaScript `a || d` on an optional string: missing (`undefined`) and
empty strings are falsy and fall through to the default. -/
def jsOrStr (o : Option String) (d : String) : String :=
  match o with
  | some s => if s = "" then d else s
  | none => d

/-- The result of the JavaScript bracket read `map[status]` on the object
literal: a configured string value (possibly `undefined`) for one of the
four own keys; a truthy non-string member inherited from `Object.prototype`
(bracket lookup walks the prototype chain of the literal); or `undefined`
for a genuinely absent key. -/
inductive JsValue where
  | str (s : String)
  | undef
  | protoMember (name : String)
deriving DecidableEq, Repr

/-- The member names every object literal inherits from `Object.prototype`;
`map[k]` for these yields a truthy function (or, for `__proto__`, the
prototype object itself), never a string. -/
def protoKeys : List String :=
  ["constructor", "hasOwnProperty", "isPrototypeOf", "propertyIsEnumerable",
    "toLocaleString", "toString", "valueOf", "__proto__", "__defineGetter__",
    "__defineSetter__", "__lookupGetter__", "__lookupSetter__"]

/-- Lift a `string | undefined` configuration field to a JS value. -/
def optToJs : Option String → JsValue
  | some s => JsValue.str s
  | none => JsValue.undef

/-- JS truthiness of the values arising here: `undefined` and the empty
string are falsy; every inherited prototype member is truthy. -/
def jsTruthy : JsValue → Bool
  | JsValue.str s => !(s == "")
  | JsValue.undef => false
  | JsValue.protoMember _ => true

/-- JavaScript `a || b` on such values. -/
def jsOrVal (a b : JsValue) : JsValue :=
  if jsTruthy a then a else b

/-- The `map[status]` lookup shared by `getStatusColor` and
`getStatusStroke`: the four own keys first (each holding its configured
override, possibly `undefined`), then the inherited `Object.prototype`
members, then `undefined`. -/
def statusOverride (status : String) (colors : StatusColors) : JsValue :=
  if status = "AVAILABLE" then optToJs colors.available
  else if status = "RESERVED" then optToJs colors.reserved
  else if status = "SOLD" then optToJs colors.sold
  else if status = "UNAVAILABLE" then optToJs colors.unavailable
  else if status ∈ protoKeys then JsValue.protoMember status
  else JsValue.undef

/-- The base color `map[status] || colors.unavailable || "#9ca3af"`. -/
def statusBase (status : String) (colors : StatusColors) : JsValue :=
  jsOrVal (statusOverride status colors)
    (jsOrVal (optToJs colors.unavailable) (JsValue.str "#9ca3af"))

/-- `ensureRgba` applied to a raw JS value: `undefined` is falsy and yields
black at the requested alpha, a string goes through the string parser, and
a non-string prototype member passes the `!color` test (truthy) and then
crashes on `color.trim()` — a thrown TypeError, modelled as `none`. -/
def ensureRgbaJs (color : JsValue) (alphaStr : String) : Option String :=
  match color with
  | JsValue.undef => some (rgbaStr "0" "0" "0" alphaStr)
  | JsValue.str s => some (ensureRgba (some s) alphaStr)
  | JsValue.protoMember _ => none

/-- `getStatusColor(status, colors, alpha)`: the base color passed through
`ensureRgba` at the requested alpha; `none` models the TypeError thrown
when the base is a non-string prototype member. -/
def getStatusColor (status : String) (colors : StatusColors)
    (alphaStr : String) : Option String :=
  ensureRgbaJs (statusBase status colors) alphaStr

/-- `getStatusStroke(status, colors)`: the raw base value at full opacity
(a non-color JS value when the lookup hit the prototype chain). -/
def getStatusStroke (status : String) (colors : StatusColors) : JsValue :=
  statusBase status colors

/-! ## Aggregate fill color (`BuildingFloorSelector.getFillColor`)

A floor region's fill is resolved from the statuses of the floor's
apartments; the floor argument is `none` when the polygon's linked floor id
matches no floor. -/

/-- `getFillColor(floor, isHovered)` of `BuildingFloorSelector`, with the
floor reduced to the list of its apartments' statuses. -/
def getFillColor (colors : StatusColors) (floor : Option (List String))
    (isHovered : Bool) : String :=
  match floor with
  | none =>
    ensureRgba (some "rgba(100,130,255,0.2)") (if isHovered then "0.55" else "0.2")
  | some statuses =>
    let avail := (statuses.filter (fun st => st == "AVAILABLE")).length
    let total := statuses.length
    let baseColor :=
      if total = 0 then jsOrStr colors.available "#22c55e"
      else if avail = 0 then jsOrStr colors.sold "#ef4444"
      else if avail < total then jsOrStr colors.reserved "#f59e0b"
      else jsOrStr colors.available "#22c55e"
    ensureRgba (some baseColor) (if isHovered then "0.55" else "0.3")

end Vizor

namespace Vizor

/-- C1. For every drawing state with at least 3 buffered points, a click whose
normalized Euclidean distance to the first buffered point is within
(strictly less than) 0.02 closes the polygon: the buffer is committed to the
polygon set as a new unlinked polygon and no vertex is appended.  And on the
other side of the boundary: from a concrete 3-point buffer whose first point
is (0.1, 0.1), a click at distance exactly 0.021 does not close the polygon
but appends a new vertex. -/
theorem close_polygon_within_threshold
    (s : EditorState) (pt : Point)
    (hmode : s.mode = EditorMode.draw)
    (hspace : s.spaceHeld = false) (hpan : s.isPanning = false)
    (h3 : 3 ≤ s.currentPoints.length)
    (hdist : distSq pt s.currentPoints.headI < closeThresholdSq) :
    ((handleSvgClick s pt).polygons = s.polygons ++ [⟨"", s.currentPoints⟩] ∧
      (handleSvgClick s pt).currentPoints = [] ∧
      (handleSvgClick s pt).mode = EditorMode.select) ∧
    ((handleSvgClick drawState3 pt021).polygons = drawState3.polygons ∧
      (handleSvgClick drawState3 pt021).currentPoints =
        drawState3.currentPoints ++ [pt021]) := by
  constructor
  · unfold handleSvgClick
    rw [hspace, hpan, hmode]
    simp only [Bool.or_self, Bool.false_eq_true, if_false, ne_eq,
      not_true_eq_false, if_pos h3, if_pos hdist]
    exact ⟨trivial, trivial, trivial⟩
  · constructor <;>
      norm_num [handleSvgClick, drawState3, pt021, distSq, closeThresholdSq,
        List.headI]

/-- Witness for `close_polygon_within_threshold`: a click at distance 0.019
from the first point of the concrete 3-point buffer closes the polygon. -/
theorem close_polygon_within_threshold_witness :
    ((handleSvgClick drawState3 ⟨1/10 + 19/1000, 1/10⟩).polygons =
        drawState3.polygons ++ [⟨"", drawState3.currentPoints⟩] ∧
      (handleSvgClick drawState3 ⟨1/10 + 19/1000, 1/10⟩).currentPoints = [] ∧
      (handleSvgClick drawState3 ⟨1/10 + 19/1000, 1/10⟩).mode =
        EditorMode.select) ∧
    ((handleSvgClick drawState3 pt021).polygons = drawState3.polygons ∧
      (handleSvgClick drawState3 pt021).currentPoints =
        drawState3.currentPoints ++ [pt021]) :=
  close_polygon_within_threshold drawState3 ⟨1/10 + 19/1000, 1/10⟩
    rfl rfl rfl (by norm_num [drawState3])
    (by norm_num [drawState3, distSq, closeThresholdSq, List.headI])

end Vizor

namespace Vizor

/-- C2. For every list of sub-entity (apartment) statuses, the aggregate fill
color resolver of `BuildingFloorSelector` returns: the available color when
every sub-entity is `AVAILABLE`; the sold color when the total is positive
and no sub-entity is `AVAILABLE`; the reserved color when some but not all
sub-entities are `AVAILABLE`; and the available color when the list is
empty. -/
theorem aggregate_fill_color_resolution (colors : StatusColors)
    (statuses : List String) (hov : Bool) :
    ((∀ st ∈ statuses, st = "AVAILABLE") →
      getFillColor colors (some statuses) hov =
        ensureRgba (some (jsOrStr colors.available "#22c55e"))
          (if hov then "0.55" else "0.3")) ∧
    (statuses ≠ [] → (∀ st ∈ statuses, st ≠ "AVAILABLE") →
      getFillColor colors (some statuses) hov =
        ensureRgba (some (jsOrStr colors.sold "#ef4444"))
          (if hov then "0.55" else "0.3")) ∧
    ((∃ st ∈ statuses, st = "AVAILABLE") → (∃ st ∈ statuses, st ≠ "AVAILABLE") →
      getFillColor colors (some statuses) hov =
        ensureRgba (some (jsOrStr colors.reserved "#f59e0b"))
          (if hov then "0.55" else "0.3")) ∧
    (statuses = [] →
      getFillColor colors (some statuses) hov =
        ensureRgba (some (jsOrStr colors.available "#22c55e"))
          (if hov then "0.55" else "0.3")) := by
  refine ⟨?_, ?_, ?_, ?_⟩
  · intro hall
    have hlen : (statuses.filter (fun st => st == "AVAILABLE")).length =
        statuses.length := by
      rw [List.filter_eq_self.mpr]
      intro a ha
      exact beq_iff_eq.mpr (hall a ha)
    simp only [getFillColor, hlen]
    rcases Nat.eq_zero_or_pos statuses.length with h0 | hpos
    · rw [if_pos h0]
    · rw [if_neg hpos.ne', if_neg hpos.ne', if_neg (lt_irrefl _)]
  · intro hne hnone
    have hfil : statuses.filter (fun st => st == "AVAILABLE") = [] :=
      List.filter_eq_nil_iff.mpr fun a ha => by simpa using hnone a ha
    have htot : statuses.length ≠ 0 := fun h =>
      hne (List.length_eq_zero.mp h)
    simp only [getFillColor, hfil, List.length_nil]
    rw [if_neg htot, if_pos trivial]
  · intro hsome hnot
    have hpos : 0 < (statuses.filter (fun st => st == "AVAILABLE")).length := by
      obtain ⟨st, hmem, hst⟩ := hsome
      exact List.length_pos.mpr
        (List.ne_nil_of_mem (List.mem_filter.mpr ⟨hmem, beq_iff_eq.mpr hst⟩))
    have hlt : (statuses.filter (fun st => st == "AVAILABLE")).length <
        statuses.length := by
      apply List.length_filter_lt_length_iff_exists.mpr
      obtain ⟨st, hmem, hst⟩ := hnot
      exact ⟨st, hmem, by simpa using hst⟩
    have htot : statuses.length ≠ 0 := by omega
    simp only [getFillColor]
    rw [if_neg htot, if_neg hpos.ne', if_pos hlt]
  · intro h0
    subst h0
    rfl

/-- Witness for `aggregate_fill_color_resolution`: with no configured
overrides, a floor with statuses `[AVAILABLE, SOLD]` resolves to the
reserved default `#f59e0b` at alpha 0.3. -/
theorem aggregate_fill_color_resolution_witness :
    getFillColor ⟨none, none, none, none⟩ (some ["AVAILABLE", "SOLD"]) false =
      ensureRgba (some (jsOrStr (StatusColors.mk none none none none).reserved
        "#f59e0b")) (if false then "0.55" else "0.3") :=
  (aggregate_fill_color_resolution ⟨none, none, none, none⟩
      ["AVAILABLE", "SOLD"] false).2.2.1
    ⟨"AVAILABLE", by simp⟩ ⟨"SOLD", by simp⟩

end Vizor

namespace Vizor

/-- The `Escape` branch of `handleKeyDown` in `PolygonEditor`: if drawing
with a non-empty buffer, discard the buffer and switch to select mode;
in every case clear the selection. -/
def handleEscape (s : EditorState) : EditorState :=
  let s1 :=
    if s.mode = EditorMode.draw ∧ 0 < s.currentPoints.length then
      { s with currentPoints := [], mode := EditorMode.select }
    else s
  { s1 with selectedPolygonIdx := none }

/-- A concrete edit-mode state with a selection, used to exercise the
Escape handler. -/
def editState : EditorState :=
  { mode := EditorMode.edit
    currentPoints := []
    selectedPolygonIdx := some 0
    polygons := [⟨"apt-1", [⟨0, 0⟩, ⟨0, 1⟩, ⟨1, 1⟩]⟩]
    zoom := 1
    pan := ⟨0, 0⟩
    spaceHeld := false
    isPanning := false
    draggingVertex := none }

/-- C3 counterexample. The claim says Escape transitions the editor to
select mode in every mode; but from a concrete edit-mode state, the mode
after Escape is still `edit`, not `select`. -/
theorem escape_keeps_edit_mode_counterexample :
    (handleEscape editState).mode = EditorMode.edit ∧
      EditorMode.edit ≠ EditorMode.select := by
  constructor
  · rfl
  · intro h
    cases h

/-- C3 (amended). Pressing Escape always clears the selection; it
transitions to select mode and discards the draw buffer exactly when the
editor is in draw mode with a non-empty draw buffer; otherwise the mode and
the draw buffer are unchanged. -/
theorem escape_transition (s : EditorState) :
    (handleEscape s).selectedPolygonIdx = none ∧
    (s.mode = EditorMode.draw → s.currentPoints ≠ [] →
      (handleEscape s).mode = EditorMode.select ∧
        (handleEscape s).currentPoints = []) ∧
    (¬(s.mode = EditorMode.draw ∧ s.currentPoints ≠ []) →
      (handleEscape s).mode = s.mode ∧
        (handleEscape s).currentPoints = s.currentPoints ∧
        (handleEscape s).polygons = s.polygons) := by
  refine ⟨rfl, ?_, ?_⟩
  · intro hmode hne
    have hc : s.mode = EditorMode.draw ∧ 0 < s.currentPoints.length :=
      ⟨hmode, List.length_pos.mpr hne⟩
    unfold handleEscape
    rw [if_pos hc]
    exact ⟨rfl, rfl⟩
  · intro hnot
    have hc : ¬(s.mode = EditorMode.draw ∧ 0 < s.currentPoints.length) := by
      rintro ⟨h1, h2⟩
      exact hnot ⟨h1, List.length_pos.mp h2⟩
    unfold handleEscape
    rw [if_neg hc]
    exact ⟨rfl, rfl, rfl⟩

/-- Witness for `escape_transition`: Escape from the concrete edit-mode
state clears the selection but leaves mode, buffer and polygons alone. -/
theorem escape_transition_witness :
    (handleEscape editState).mode = editState.mode ∧
      (handleEscape editState).currentPoints = editState.currentPoints ∧
      (handleEscape editState).polygons = editState.polygons :=
  (escape_transition editState).2.2 (by rintro ⟨h, -⟩; cases h)

/-! ## View transform: zoom and pan -/

/-- The view transform of the editor: zoom factor plus pan offset in screen
pixels. -/
structure ViewTransform where
  zoom : ℚ
  pan : Point
deriving DecidableEq, Repr

/-- The zoom-changing events of `PolygonEditor`: `Ctrl/Cmd + =` and
`Ctrl/Cmd + -`, the on-screen zoom buttons, `Ctrl/Cmd + scroll` (with the
wheel delta), and the reset action (`Ctrl/Cmd + 0` or the Reset button). -/
inductive ZoomEvent where
  | kbZoomIn
  | kbZoomOut
  | btnZoomIn
  | btnZoomOut
  | wheel (deltaY : ℚ)
  | reset
deriving DecidableEq, Repr

/-- Apply one zoom event, exactly as the source handlers do:
keyboard and buttons use `min(z * 1.2, 5)` / `max(z / 1.2, 0.5)`, the wheel
uses `min(max(z * delta, 0.5), 5)` with `delta = 0.9` when scrolling down
(`deltaY > 0`) and `1.1` otherwise, and reset restores zoom 1 / pan (0,0). -/
def applyZoomEvent (vt : ViewTransform) : ZoomEvent → ViewTransform
  | ZoomEvent.kbZoomIn => { vt with zoom := min (vt.zoom * (12/10)) 5 }
  | ZoomEvent.kbZoomOut => { vt with zoom := max (vt.zoom / (12/10)) (5/10) }
  | ZoomEvent.btnZoomIn => { vt with zoom := min (vt.zoom * (12/10)) 5 }
  | ZoomEvent.btnZoomOut => { vt with zoom := max (vt.zoom / (12/10)) (5/10) }
  | ZoomEvent.wheel deltaY =>
    let delta : ℚ := if 0 < deltaY then 9/10 else 11/10
    { vt with zoom := min (max (vt.zoom * delta) (5/10)) 5 }
  | ZoomEvent.reset => { zoom := 1, pan := ⟨0, 0⟩ }

/-- The initial view transform (`useState(1)` / `useState({x:0,y:0})`). -/
def initialView : ViewTransform := { zoom := 1, pan := ⟨0, 0⟩ }

/-- One zoom event preserves the zoom bounds `[0.5, 5]`. -/
theorem applyZoomEvent_zoom_bounds (vt : ViewTransform) (ev : ZoomEvent)
    (h1 : 1/2 ≤ vt.zoom) (h2 : vt.zoom ≤ 5) :
    1/2 ≤ (applyZoomEvent vt ev).zoom ∧ (applyZoomEvent vt ev).zoom ≤ 5 := by
  cases ev with
  | kbZoomIn =>
    exact ⟨le_min (by linarith) (by norm_num), min_le_right _ _⟩
  | kbZoomOut =>
    refine ⟨le_trans (by norm_num) (le_max_right _ _), max_le ?_ (by norm_num)⟩
    rw [div_le_iff₀ (by norm_num)]
    linarith
  | btnZoomIn =>
    exact ⟨le_min (by linarith) (by norm_num), min_le_right _ _⟩
  | btnZoomOut =>
    refine ⟨le_trans (by norm_num) (le_max_right _ _), max_le ?_ (by norm_num)⟩
    rw [div_le_iff₀ (by norm_num)]
    linarith
  | wheel deltaY =>
    refine ⟨le_min (le_trans (by norm_num) (le_max_right _ _)) (by norm_num),
      min_le_right _ _⟩
  | reset =>
    exact ⟨by norm_num [applyZoomEvent], by norm_num [applyZoomEvent]⟩

/-- Folding any event list preserves the zoom bounds. -/
theorem foldl_zoom_bounds (events : List ZoomEvent) (vt : ViewTransform)
    (h1 : 1/2 ≤ vt.zoom) (h2 : vt.zoom ≤ 5) :
    1/2 ≤ (events.foldl applyZoomEvent vt).zoom ∧
      (events.foldl applyZoomEvent vt).zoom ≤ 5 := by
  induction events generalizing vt with
  | nil => exact ⟨h1, h2⟩
  | cons ev rest ih =>
    obtain ⟨g1, g2⟩ := applyZoomEvent_zoom_bounds vt ev h1 h2
    exact ih (applyZoomEvent vt ev) g1 g2

/-- C4. For every sequence of zoom events (keyboard, buttons, or
Ctrl+scroll) starting from the initial view, the zoom factor stays within
[0.5, 5]; and the reset event sets zoom to 1 and pan to (0,0) from any
state. -/
theorem zoom_always_clamped :
    (∀ events : List ZoomEvent,
      1/2 ≤ (events.foldl applyZoomEvent initialView).zoom ∧
        (events.foldl applyZoomEvent initialView).zoom ≤ 5) ∧
    (∀ vt : ViewTransform,
      applyZoomEvent vt ZoomEvent.reset = { zoom := 1, pan := ⟨0, 0⟩ }) :=
  ⟨fun events =>
    foldl_zoom_bounds events initialView (by norm_num [initialView])
      (by norm_num [initialView]),
    fun _ => rfl⟩

/-! ## Vertex drag (`handleMouseMove`, dragging branch) -/

/-- The vertex-drag update of `handleMouseMove`: copy the polygon array,
copy the dragged polygon and its points array, replace the dragged vertex
with the new point, and put the new polygon back at its index.  Out-of-range
polygon indices leave the set unchanged (the state machine only produces
in-range indices). -/
def updateVertex (ps : List DrawnPolygon) (polyIdx vertIdx : ℕ)
    (pt : Point) : List DrawnPolygon :=
  match ps[polyIdx]? with
  | none => ps
  | some poly =>
    ps.set polyIdx { poly with points := poly.points.set vertIdx pt }

/-- C5. For every polygon set, valid polygon index, valid vertex index and
new point, the vertex-drag update yields a set of the same length in which
every other polygon is untouched, the updated polygon keeps its link and has
exactly the dragged vertex replaced by the new point, all other vertices
unchanged.  (The previous set is untouched by construction: `updateVertex`
is a pure function on immutable lists, mirroring the source's
copy-then-replace.) -/
theorem updateVertex_replaces_single_vertex (ps : List DrawnPolygon)
    (i j : ℕ) (pt : Point) (hi : i < ps.length)
    (hj : j < (ps.get ⟨i, hi⟩).points.length) :
    (updateVertex ps i j pt).length = ps.length ∧
    (∀ k, k ≠ i → (updateVertex ps i j pt)[k]? = ps[k]?) ∧
    (updateVertex ps i j pt)[i]? =
      some { apartmentId := (ps.get ⟨i, hi⟩).apartmentId
             points := (ps.get ⟨i, hi⟩).points.set j pt } ∧
    ((ps.get ⟨i, hi⟩).points.set j pt)[j]? = some pt ∧
    (∀ l, l ≠ j →
      ((ps.get ⟨i, hi⟩).points.set j pt)[l]? = (ps.get ⟨i, hi⟩).points[l]?) := by
  have hget : ps[i]? = some (ps.get ⟨i, hi⟩) := List.getElem?_eq_getElem hi
  refine ⟨?_, ?_, ?_, ?_, ?_⟩
  · unfold updateVertex
    rw [hget]
    exact List.length_set ..
  · intro k hk
    unfold updateVertex
    rw [hget]
    exact List.getElem?_set_ne (Ne.symm hk)
  · unfold updateVertex
    rw [hget]
    exact List.getElem?_set_self hi
  · exact List.getElem?_set_self hj
  · intro l hl
    exact List.getElem?_set_ne (Ne.symm hl)

/-- A concrete two-polygon set used to exercise `updateVertex`. -/
def samplePolys : List DrawnPolygon :=
  [⟨"apt-1", [⟨0, 0⟩, ⟨0, 1⟩, ⟨1, 1⟩]⟩,
    ⟨"apt-2", [⟨1/2, 1/2⟩, ⟨1/2, 1⟩, ⟨1, 1⟩]⟩]

/-- Witness for `updateVertex_replaces_single_vertex`: dragging vertex 1 of
polygon 0 of `samplePolys` to (1/4, 1/4) keeps the length and polygon 1,
replaces exactly vertex 1 of polygon 0, and keeps its link and vertex 0. -/
theorem updateVertex_replaces_single_vertex_witness :
    (updateVertex samplePolys 0 1 ⟨1/4, 1/4⟩).length = samplePolys.length ∧
    (updateVertex samplePolys 0 1 ⟨1/4, 1/4⟩)[1]? = samplePolys[1]? ∧
    (updateVertex samplePolys 0 1 ⟨1/4, 1/4⟩)[0]? =
      some { apartmentId := (samplePolys.get ⟨0, by norm_num [samplePolys]⟩).apartmentId
             points := (samplePolys.get ⟨0, by norm_num [samplePolys]⟩).points.set 1
               ⟨1/4, 1/4⟩ } ∧
    ((samplePolys.get ⟨0, by norm_num [samplePolys]⟩).points.set 1
      ⟨1/4, 1/4⟩)[1]? = some ⟨1/4, 1/4⟩ ∧
    ((samplePolys.get ⟨0, by norm_num [samplePolys]⟩).points.set 1
      ⟨1/4, 1/4⟩)[0]? = (samplePolys.get ⟨0, by norm_num [samplePolys]⟩).points[0]? :=
  ⟨(updateVertex_replaces_single_vertex samplePolys 0 1 ⟨1/4, 1/4⟩
      (by norm_num [samplePolys]) (by norm_num [samplePolys])).1,
    (updateVertex_replaces_single_vertex samplePolys 0 1 ⟨1/4, 1/4⟩
      (by norm_num [samplePolys]) (by norm_num [samplePolys])).2.1 1 (by norm_num),
    (updateVertex_replaces_single_vertex samplePolys 0 1 ⟨1/4, 1/4⟩
      (by norm_num [samplePolys]) (by norm_num [samplePolys])).2.2.1,
    (updateVertex_replaces_single_vertex samplePolys 0 1 ⟨1/4, 1/4⟩
      (by norm_num [samplePolys]) (by norm_num [samplePolys])).2.2.2.1,
    (updateVertex_replaces_single_vertex samplePolys 0 1 ⟨1/4, 1/4⟩
      (by norm_num [samplePolys]) (by norm_num [samplePolys])).2.2.2.2 0
      (by norm_num)⟩

end Vizor

namespace Vizor

/-! ## Viewer click eligibility (`InteractiveFloorPlan`) -/

/-- The entity data a viewer click decision depends on. -/
structure ApartmentData where
  id : String
  status : String
deriving DecidableEq, Repr

/-- `isVisible(apt)`: no active filter set (`none`) shows everything;
otherwise the entity's status must be in the filter list. -/
def isVisible (filterStatus : Option (List String)) (apt : ApartmentData) : Bool :=
  match filterStatus with
  | none => true
  | some l => l.contains apt.status

/-- `handlePolygonClick` of the image-based viewer: dispatch the apartment
to the host unless it is filtered out or `UNAVAILABLE`. -/
def handlePolygonClick (filterStatus : Option (List String))
    (apt : ApartmentData) : Option ApartmentData :=
  if ¬ (isVisible filterStatus apt = true) ∨ apt.status = "UNAVAILABLE" then none
  else some apt

/-- The `onclick` closure of the legacy embedded-markup viewer
(`LegacySvgFloorPlan`): dispatch only when visible and not `UNAVAILABLE`. -/
def legacyOnClick (filterStatus : Option (List String))
    (apt : ApartmentData) : Option ApartmentData :=
  if isVisible filterStatus apt = true ∧ apt.status ≠ "UNAVAILABLE" then some apt
  else none

/-- C6. In both viewer variants, a click on a region whose entity status is
excluded from the active filter set never dispatches the click handler, and
a click on an `UNAVAILABLE` entity never dispatches regardless of the
filter set. -/
theorem excluded_or_unavailable_never_dispatches
    (filterStatus : Option (List String)) (l : List String)
    (apt : ApartmentData) :
    (filterStatus = some l → apt.status ∉ l →
      handlePolygonClick filterStatus apt = none ∧
        legacyOnClick filterStatus apt = none) ∧
    (apt.status = "UNAVAILABLE" →
      handlePolygonClick filterStatus apt = none ∧
        legacyOnClick filterStatus apt = none) := by
  constructor
  · intro hf hnot
    subst hf
    have hvis : isVisible (some l) apt = false := by
      simp [isVisible, hnot]
    constructor
    · unfold handlePolygonClick
      rw [if_pos (Or.inl (by simp [hvis]))]
    · unfold legacyOnClick
      rw [if_neg (by simp [hvis])]
  · intro hu
    constructor
    · unfold handlePolygonClick
      rw [if_pos (Or.inr hu)]
    · unfold legacyOnClick
      rw [if_neg (by simp [hu])]

/-- Witness for `excluded_or_unavailable_never_dispatches`: with the filter
set `[AVAILABLE]`, a `SOLD` apartment is not dispatched by either viewer
variant. -/
theorem excluded_or_unavailable_never_dispatches_witness :
    handlePolygonClick (some ["AVAILABLE"]) ⟨"apt-9", "SOLD"⟩ = none ∧
      legacyOnClick (some ["AVAILABLE"]) ⟨"apt-9", "SOLD"⟩ = none :=
  (excluded_or_unavailable_never_dispatches (some ["AVAILABLE"]) ["AVAILABLE"]
    ⟨"apt-9", "SOLD"⟩).1 rfl (by simp)

/-! ## Screen-to-normalized coordinate conversion -/

/-- The on-screen bounding box of the SVG overlay
(`svg.getBoundingClientRect()`). -/
structure DomRect where
  left : ℚ
  top : ℚ
  width : ℚ
  height : ℚ
deriving DecidableEq, Repr

/-- `screenToNormalized(clientX, clientY)`: returns (0,0) when the SVG ref
is missing or the image width is 0; otherwise the pointer offset relative
to the bounding box, clamped into [0,1]×[0,1]. -/
def screenToNormalized (svgPresent : Bool) (imageWidth : ℚ) (rect : DomRect)
    (clientX clientY : ℚ) : Point :=
  if svgPresent = false ∨ imageWidth = 0 then ⟨0, 0⟩
  else
    let x := (clientX - rect.left) / rect.width
    let y := (clientY - rect.top) / rect.height
    ⟨max 0 (min 1 x), max 0 (min 1 y)⟩

/-- C9. For every pointer position and every surface rectangle of positive
size, `screenToNormalized` returns a point with both coordinates in [0,1];
it is total, and when the surface is missing or the image width is 0 it
returns (0,0).  (The positivity hypotheses only rule out the degenerate
zero-size bounding box, where JS division produces non-finite values.) -/
theorem screenToNormalized_clamped (svgPresent : Bool) (imageWidth : ℚ)
    (rect : DomRect) (clientX clientY : ℚ)
    (_hw : 0 < rect.width) (_hh : 0 < rect.height) :
    (0 ≤ (screenToNormalized svgPresent imageWidth rect clientX clientY).x ∧
      (screenToNormalized svgPresent imageWidth rect clientX clientY).x ≤ 1 ∧
      0 ≤ (screenToNormalized svgPresent imageWidth rect clientX clientY).y ∧
      (screenToNormalized svgPresent imageWidth rect clientX clientY).y ≤ 1) ∧
    (svgPresent = false ∨ imageWidth = 0 →
      screenToNormalized svgPresent imageWidth rect clientX clientY = ⟨0, 0⟩) := by
  constructor
  · unfold screenToNormalized
    by_cases h : svgPresent = false ∨ imageWidth = 0
    · rw [if_pos h]
      norm_num
    · rw [if_neg h]
      refine ⟨le_max_left _ _, ?_, le_max_left _ _, ?_⟩
      · exact max_le (by norm_num) (min_le_left _ _)
      · exact max_le (by norm_num) (min_le_left _ _)
  · intro h
    unfold screenToNormalized
    rw [if_pos h]

/-- Witness for `screenToNormalized_clamped`: a pointer far outside a
concrete 800×600 box at (10, 20) clamps to the corner (1, 0). -/
theorem screenToNormalized_clamped_witness :
    (0 ≤ (screenToNormalized true 1200 ⟨10, 20, 800, 600⟩ 5000 (-50)).x ∧
      (screenToNormalized true 1200 ⟨10, 20, 800, 600⟩ 5000 (-50)).x ≤ 1 ∧
      0 ≤ (screenToNormalized true 1200 ⟨10, 20, 800, 600⟩ 5000 (-50)).y ∧
      (screenToNormalized true 1200 ⟨10, 20, 800, 600⟩ 5000 (-50)).y ≤ 1) ∧
    (true = false ∨ (1200 : ℚ) = 0 →
      screenToNormalized true 1200 ⟨10, 20, 800, 600⟩ 5000 (-50) = ⟨0, 0⟩) :=
  screenToNormalized_clamped true 1200 ⟨10, 20, 800, 600⟩ 5000 (-50)
    (by norm_num) (by norm_num)

end Vizor

namespace Vizor

/-- C7 counterexample. `"#zzz"` is neither a `#rgb`/`#rrggbb` hex color nor
an `rgb()`/`rgba()` string, yet `ensureRgba` does not return it unchanged:
every input starting with `#` is pushed through the hex parse (invalid
digits read as `NaN`, i.e. 0), producing `rgba(0,0,0,alpha)`. -/
theorem ensureRgba_converts_invalid_hex :
    ensureRgba (some "#zzz") "1" = "rgba(0,0,0,1)" ∧
      ("#zzz" : String) ≠ "rgba(0,0,0,1)" := by
  constructor
  · decide
  · decide

/-- C7 (amended). `ensureRgba` never fails and classifies its input by the
code's own tests: an input whose trimmed form starts with `#`, or contains
an `rgb(`/`rgba(` group, or is empty/missing, is converted to an
`rgba(r,g,b,alpha)` string at the requested alpha; every other input is
returned trimmed but otherwise unchanged, with the alpha request
dropped. -/
theorem ensureRgba_classification (col alphaStr : String) :
    (col ≠ "" → (jsTrim col.toList).head? ≠ some '#' →
      findRgb (jsTrim col.toList) = none →
      ensureRgba (some col) alphaStr = String.mk (jsTrim col.toList)) ∧
    ((jsTrim col.toList).head? = some '#' ∨
        (findRgb (jsTrim col.toList)).isSome = true ∨ col = "" →
      ∃ r g b : String, ensureRgba (some col) alphaStr =
        "rgba(" ++ r ++ "," ++ g ++ "," ++ b ++ "," ++ alphaStr ++ ")") ∧
    ensureRgba none alphaStr = "rgba(0,0,0," ++ alphaStr ++ ")" := by
  refine ⟨?_, ?_, rfl⟩
  · intro hne hnotHex hnoRgb
    simp only [ensureRgba]
    rw [if_neg hne, if_neg hnotHex, hnoRgb]
  · intro hcase
    by_cases hempty : col = ""
    · exact ⟨"0", "0", "0", by simp only [ensureRgba]; rw [if_pos hempty]; rfl⟩
    · by_cases hhex : (jsTrim col.toList).head? = some '#'
      · simp only [ensureRgba]
        rw [if_neg hempty, if_pos hhex]
        exact ⟨_, _, _, rfl⟩
      · rcases hcase with h | h | h
        · exact absurd h hhex
        · obtain ⟨inner, hinner⟩ := Option.isSome_iff_exists.mp h
          simp only [ensureRgba]
          rw [if_neg hempty, if_neg hhex, hinner]
          exact ⟨_, _, _, rfl⟩
        · exact absurd h hempty

/-- Witness for `ensureRgba_classification`: the free-form color `"gold"`
(no `#`, no `rgb(` group) is returned unchanged, and a missing color turns
into black at the requested alpha. -/
theorem ensureRgba_classification_witness :
    ensureRgba (some "gold") "0.5" = String.mk (jsTrim "gold".toList) ∧
      ensureRgba none "0.5" = "rgba(0,0,0," ++ "0.5" ++ ")" :=
  ⟨(ensureRgba_classification "gold" "0.5").1 (by decide) (by decide) (by decide),
    (ensureRgba_classification "gold" "0.5").2.2⟩

/-- C10 counterexample. `"toString"` is a status string outside the four
statuses, so the claim requires the resolvers to fall back to the
unavailable/gray color and never fail; but `map["toString"]` finds the
inherited `Object.prototype.toString` (truthy), so the stroke resolver
returns that non-color member instead of the fallback and the fill resolver
throws a TypeError inside `ensureRgba` (`color.trim` is not a function). -/
theorem status_resolver_fails_on_proto_member :
    getStatusColor "toString" ⟨none, none, none, none⟩ "0.4" = none ∧
      getStatusStroke "toString" ⟨none, none, none, none⟩ =
        JsValue.protoMember "toString" ∧
      ("toString" : String) ∉
        (["AVAILABLE", "RESERVED", "SOLD", "UNAVAILABLE"] : List String) := by
  refine ⟨rfl, rfl, by decide⟩

/-- C10 (amended). Whenever the `map[status]` lookup yields `undefined` —
for every status outside the four statuses that is not the name of an
inherited `Object.prototype` member, and also when the matching per-status
override is absent (or the JS-falsy empty string) — both resolvers fall back
to the configured unavailable color, and to the default gray `#9ca3af` when
no unavailable override is configured either; but for a status naming an
inherited `Object.prototype` member the lookup returns that truthy
non-string member, so the stroke resolver yields it unchanged and the fill
resolver throws a TypeError. -/
theorem status_color_fallback (status : String) (colors : StatusColors)
    (alphaStr : String) :
    (statusOverride status colors = JsValue.undef ∨
        statusOverride status colors = JsValue.str "" →
      getStatusStroke status colors =
          jsOrVal (optToJs colors.unavailable) (JsValue.str "#9ca3af") ∧
        getStatusColor status colors alphaStr =
          ensureRgbaJs (jsOrVal (optToJs colors.unavailable)
            (JsValue.str "#9ca3af")) alphaStr) ∧
    (status ∉ ["AVAILABLE", "RESERVED", "SOLD", "UNAVAILABLE"] →
      status ∉ protoKeys → statusOverride status colors = JsValue.undef) ∧
    (statusOverride status colors = JsValue.undef → colors.unavailable = none →
      getStatusStroke status colors = JsValue.str "#9ca3af" ∧
        getStatusColor status colors alphaStr =
          some ("rgba(156,163,175," ++ alphaStr ++ ")")) ∧
    (status ∈ protoKeys →
      getStatusStroke status colors = JsValue.protoMember status ∧
        getStatusColor status colors alphaStr = none) := by
  refine ⟨?_, ?_, ?_, ?_⟩
  · intro h
    rcases h with h | h <;>
      exact ⟨by unfold getStatusStroke statusBase jsOrVal; rw [h]; rfl,
        by unfold getStatusColor statusBase jsOrVal; rw [h]; rfl⟩
  · intro hnot hnp
    unfold statusOverride
    rw [if_neg, if_neg, if_neg, if_neg, if_neg] <;> simp_all
  · intro hmiss hunav
    constructor
    · unfold getStatusStroke statusBase
      rw [hmiss, hunav]
      rfl
    · unfold getStatusColor statusBase
      rw [hmiss, hunav]
      rfl
  · intro hp
    have hfour : status ≠ "AVAILABLE" ∧ status ≠ "RESERVED" ∧
        status ≠ "SOLD" ∧ status ≠ "UNAVAILABLE" := by
      simp only [protoKeys, List.mem_cons, List.not_mem_nil, or_false] at hp
      rcases hp with rfl | rfl | rfl | rfl | rfl | rfl | rfl | rfl | rfl |
        rfl | rfl | rfl <;> refine ⟨?_, ?_, ?_, ?_⟩ <;> decide
    have hov : statusOverride status colors = JsValue.protoMember status := by
      unfold statusOverride
      rw [if_neg hfour.1, if_neg hfour.2.1, if_neg hfour.2.2.1,
        if_neg hfour.2.2.2, if_pos hp]
    exact ⟨by unfold getStatusStroke statusBase jsOrVal; rw [hov]; rfl,
      by unfold getStatusColor statusBase jsOrVal; rw [hov]; rfl⟩

/-- Witness for `status_color_fallback`: the unknown status `"PENDING"`
(neither one of the four statuses nor a prototype member) with no configured
overrides resolves to gray `#9ca3af` (stroke) and `rgba(156,163,175,0.4)`
(fill at alpha 0.4). -/
theorem status_color_fallback_witness :
    getStatusStroke "PENDING" ⟨none, none, none, none⟩ =
        JsValue.str "#9ca3af" ∧
      getStatusColor "PENDING" ⟨none, none, none, none⟩ "0.4" =
        some ("rgba(156,163,175," ++ "0.4" ++ ")") :=
  (status_color_fallback "PENDING" ⟨none, none, none, none⟩ "0.4").2.2.1
    ((status_color_fallback "PENDING" ⟨none, none, none, none⟩ "0.4").2.1
      (by decide) (by decide))
    rfl

end Vizor

namespace Vizor

/-! ## The `save-polygons` action (`src/unnamed/part_007`)

The apartment table is modelled as a list of rows; `prisma.updateMany`
(clear phase) never throws and acts on every row matching its `where`
clause.  The per-polygon `prisma.update({ where: { id } })` throws `P2025`
when no row carries that id; the exception propagates out of the loop into
the action's `catch`, so the remaining writes never run, while the clears
and writes already performed persist (there is no transaction).  The thrown
state is modelled by the `ok` flag: once it is false, later iterations are
skipped and the action reports an error. -/

/-- One row of the apartment table, with the fields the action touches. -/
structure Apartment where
  id : String
  floorId : String
  polygonData : Option (List Point)
deriving DecidableEq, Repr

/-- The running state of the save action: the table rows, plus whether the
loop is still running normally (`ok = false` after a `P2025` throw). -/
structure SaveState where
  db : List Apartment
  ok : Bool
deriving DecidableEq, Repr

/-- Whether some row carries the given id — the condition under which
`prisma.update({ where: { id } })` succeeds rather than throwing `P2025`. -/
def rowExists (db : List Apartment) (aid : String) : Bool :=
  db.any fun a => a.id = aid

/-- One iteration of the write loop: after a throw (`ok = false`) nothing
more runs; a polygon with an empty `apartmentId` is skipped; otherwise, if a
row with the linked id exists, its points are stored on every such row, and
if none exists the update throws (`ok := false`). -/
def writePoly (st : SaveState) (poly : DrawnPolygon) : SaveState :=
  if st.ok = false then st
  else if poly.apartmentId ≠ "" then
    if rowExists st.db poly.apartmentId then
      { st with db := st.db.map fun a =>
          if a.id = poly.apartmentId then
            { a with polygonData := some poly.points }
          else a }
    else { st with ok := false }
  else st

/-- The `save-polygons` action: first clear `polygonData` of every apartment
on the floor (`updateMany where floorId`), then write each polygon's points
to its linked apartment, aborting on the first missing id. -/
def savePolygonsAction (db : List Apartment) (floorId : String)
    (polys : List DrawnPolygon) : SaveState :=
  let cleared := db.map fun a =>
    if a.floorId = floorId then { a with polygonData := none } else a
  polys.foldl writePoly { db := cleared, ok := true }

/-- The effect of the write loop on a single row. -/
def writeStep (a : Apartment) (poly : DrawnPolygon) : Apartment :=
  if poly.apartmentId ≠ "" then
    if a.id = poly.apartmentId then { a with polygonData := some poly.points }
    else a
  else a

/-- The effect of the clear phase on a single row. -/
def clearStep (floorId : String) (a : Apartment) : Apartment :=
  if a.floorId = floorId then { a with polygonData := none } else a

/-- The maximal prefix of the polygon list whose writes execute before the
first `P2025` abort: a polygon passes if it is skipped (empty id) or its
linked row exists. -/
def executedWrites (db : List Apartment) (polys : List DrawnPolygon) :
    List DrawnPolygon :=
  polys.takeWhile fun p => p.apartmentId == "" || rowExists db p.apartmentId

theorem writeStep_id (a : Apartment) (poly : DrawnPolygon) :
    (writeStep a poly).id = a.id := by
  unfold writeStep
  split_ifs <;> rfl

/-- Rows whose id is linked by no (non-empty) polygon are untouched by the
write loop. -/
theorem foldl_writeStep_not_linked (polys : List DrawnPolygon) (a : Apartment)
    (h : ∀ p ∈ polys, p.apartmentId = "" ∨ p.apartmentId ≠ a.id) :
    polys.foldl writeStep a = a := by
  induction polys with
  | nil => rfl
  | cons q rest ih =>
    have hstep : writeStep a q = a := by
      unfold writeStep
      rcases h q (List.mem_cons_self q rest) with hq | hq
      · rw [if_neg (by simp [hq])]
      · split_ifs with h1 h2
        · exact absurd h2.symm hq
        · rfl
        · rfl
    rw [List.foldl_cons, hstep]
    exact ih fun p hp => h p (List.mem_cons_of_mem q hp)

/-- A row linked by exactly one polygon of the list ends up with that
polygon's points. -/
theorem foldl_writeStep_linked (polys : List DrawnPolygon) (a : Apartment)
    (p : DrawnPolygon) (hp : p ∈ polys) (hne : p.apartmentId ≠ "")
    (hid : p.apartmentId = a.id)
    (huniq : ∀ q ∈ polys, q.apartmentId = a.id → q = p) :
    polys.foldl writeStep a = { a with polygonData := some p.points } := by
  induction polys generalizing a with
  | nil => cases hp
  | cons q rest ih =>
    rw [List.foldl_cons]
    by_cases hw : q.apartmentId ≠ "" ∧ a.id = q.apartmentId
    · have hq : q = p := huniq q (List.mem_cons_self q rest) hw.2.symm
      subst hq
      have hstep : writeStep a q = { a with polygonData := some q.points } := by
        unfold writeStep
        rw [if_pos hw.1, if_pos hw.2]
      rw [hstep]
      by_cases hrest : q ∈ rest
      · have := ih hrest (a := { a with polygonData := some q.points }) hid
          (fun r hr hrid => huniq r (List.mem_cons_of_mem q hr) hrid)
        simpa using this
      · have : rest.foldl writeStep { a with polygonData := some q.points } =
            { a with polygonData := some q.points } := by
          apply foldl_writeStep_not_linked
          intro r hr
          by_cases hre : r.apartmentId = ""
          · exact Or.inl hre
          · refine Or.inr fun hrid => ?_
            have : r = q := huniq r (List.mem_cons_of_mem q hr) (by simpa using hrid)
            exact hrest (this ▸ hr)
        rw [this]
    · have hstep : writeStep a q = a := by
        unfold writeStep
        split_ifs with h1 h2
        · exact absurd ⟨h1, h2⟩ hw
        · rfl
        · rfl
      rw [hstep]
      have hpq : p ≠ q := by
        intro h
        subst h
        exact hw ⟨hne, hid.symm⟩
      have hprest : p ∈ rest := by
        rcases List.mem_cons.mp hp with h | h
        · exact absurd h hpq
        · exact h
      exact ih a hprest hid fun r hr hrid =>
        huniq r (List.mem_cons_of_mem q hr) hrid

theorem rowExists_map_of_id (f : Apartment → Apartment)
    (l : List Apartment) (hf : ∀ a, (f a).id = a.id) (aid : String) :
    rowExists (l.map f) aid = rowExists l aid := by
  unfold rowExists
  rw [List.any_map]
  congr 1
  funext a
  simp [hf a]

/-- Once a write has thrown, the rest of the loop does nothing. -/
theorem foldl_writePoly_fail (polys : List DrawnPolygon)
    (d : List Apartment) :
    polys.foldl writePoly ⟨d, false⟩ = ⟨d, false⟩ := by
  induction polys with
  | nil => rfl
  | cons p rest ih =>
    rw [List.foldl_cons]
    have hw : writePoly ⟨d, false⟩ p = ⟨d, false⟩ := by
      unfold writePoly
      rw [if_pos rfl]
    rw [hw, ih]

theorem writeStep_skip (a : Apartment) (p : DrawnPolygon)
    (h : p.apartmentId = "") : writeStep a p = a := by
  unfold writeStep
  rw [if_neg (by simp [h])]

/-- The write loop, started in the normal state: the resulting table is the
input table with the executed prefix of writes applied pointwise, and the
loop finishes normally exactly when every polygon is skippable or
resolvable. -/
theorem foldl_writePoly_characterization (polys : List DrawnPolygon)
    (acc : List Apartment) :
    polys.foldl writePoly ⟨acc, true⟩ =
      ⟨acc.map fun a => (executedWrites acc polys).foldl writeStep a,
        polys.all fun p => p.apartmentId == "" || rowExists acc p.apartmentId⟩ := by
  induction polys generalizing acc with
  | nil => simp [executedWrites]
  | cons p rest ih =>
    rw [List.foldl_cons]
    by_cases hempty : p.apartmentId = ""
    · have hw : writePoly ⟨acc, true⟩ p = ⟨acc, true⟩ := by
        unfold writePoly
        rw [if_neg (by simp), if_neg (by simp [hempty])]
      have hexp : executedWrites acc (p :: rest) =
          p :: executedWrites acc rest := by
        unfold executedWrites
        rw [List.takeWhile_cons_of_pos (by simp [hempty])]
      rw [hw, ih, hexp]
      simp only [SaveState.mk.injEq]
      constructor
      · congr 1
        funext a
        rw [List.foldl_cons, writeStep_skip a p hempty]
      · simp [List.all_cons, hempty]
    · by_cases hrow : rowExists acc p.apartmentId
      · have hfn : ∀ l : List Apartment,
            (l.map fun a => if a.id = p.apartmentId then
              { a with polygonData := some p.points } else a) =
            l.map fun a => writeStep a p := by
          intro l
          congr 1
          funext a
          unfold writeStep
          rw [if_pos hempty]
        have hw : writePoly ⟨acc, true⟩ p =
            ⟨acc.map fun a => writeStep a p, true⟩ := by
          unfold writePoly
          rw [if_neg (by simp), if_pos hempty, if_pos hrow]
          show SaveState.mk ((SaveState.mk acc true).db.map fun a =>
            if a.id = p.apartmentId then { a with polygonData := some p.points }
            else a) true = _
          rw [show (SaveState.mk acc true).db = acc from rfl, hfn acc]
        rw [hw, ih]
        have hre : rowExists (acc.map fun a => writeStep a p) = rowExists acc :=
          funext fun aid =>
            rowExists_map_of_id _ _ (fun a => writeStep_id a p) aid
        have hexw : executedWrites (acc.map fun a => writeStep a p) rest =
            executedWrites acc rest := by
          unfold executedWrites
          rw [hre]
        have hexp : executedWrites acc (p :: rest) =
            p :: executedWrites acc rest := by
          unfold executedWrites
          rw [List.takeWhile_cons_of_pos (by simp [hrow])]
        rw [hexw, hexp, hre]
        simp only [SaveState.mk.injEq]
        constructor
        · rw [List.map_map]
          rfl
        · simp [List.all_cons, hrow]
      · have hw : writePoly ⟨acc, true⟩ p = ⟨acc, false⟩ := by
          unfold writePoly
          rw [if_neg (by simp), if_pos hempty, if_neg hrow]
        rw [hw, foldl_writePoly_fail]
        have hexp : executedWrites acc (p :: rest) = [] := by
          unfold executedWrites
          rw [List.takeWhile_cons_of_neg (by simp [hempty, hrow])]
        rw [hexp]
        simp [List.all_cons, hempty, hrow]

/-- C8 (amended). The save operation first clears the stored polygon data of
every apartment on the floor; it then attempts to write each polygon with a
non-empty linked apartment id individually, in order, and a polygon whose
linked id matches no row makes that write throw (`P2025`), aborting the
remaining writes while the clears and earlier writes persist; polygons with
an empty id are never written.  Pointwise: a row linked by no polygon ends
cleared if on the floor and untouched otherwise (whether or not the loop
aborts); when every non-empty linked id resolves to a row, the save succeeds
and a row linked by exactly one polygon ends with that polygon's points; and
the save fails exactly when some polygon has a non-empty id matching no
row. -/
theorem save_polygons_clear_then_write (db : List Apartment)
    (floorId : String) (polys : List DrawnPolygon) (k : ℕ)
    (hk : k < db.length) :
    (savePolygonsAction db floorId polys).db.length = db.length ∧
    ((∀ p ∈ polys, p.apartmentId = "" ∨
        p.apartmentId ≠ (db.get ⟨k, hk⟩).id) →
      ((db.get ⟨k, hk⟩).floorId = floorId →
        (savePolygonsAction db floorId polys).db[k]? =
          some { db.get ⟨k, hk⟩ with polygonData := none }) ∧
      ((db.get ⟨k, hk⟩).floorId ≠ floorId →
        (savePolygonsAction db floorId polys).db[k]? =
          some (db.get ⟨k, hk⟩))) ∧
    ((∀ p ∈ polys, p.apartmentId ≠ "" → rowExists db p.apartmentId = true) →
      (savePolygonsAction db floorId polys).ok = true ∧
      (∀ p ∈ polys, p.apartmentId ≠ "" →
        p.apartmentId = (db.get ⟨k, hk⟩).id →
        (∀ q ∈ polys, q.apartmentId = (db.get ⟨k, hk⟩).id → q = p) →
        (savePolygonsAction db floorId polys).db[k]? =
          some { db.get ⟨k, hk⟩ with polygonData := some p.points })) ∧
    ((savePolygonsAction db floorId polys).ok = false ↔
      ∃ p ∈ polys, p.apartmentId ≠ "" ∧ rowExists db p.apartmentId = false) := by
  have hclid : ∀ a : Apartment, (clearStep floorId a).id = a.id := by
    intro a
    unfold clearStep
    split_ifs <;> rfl
  have hre : rowExists (db.map (clearStep floorId)) = rowExists db :=
    funext fun aid => rowExists_map_of_id _ _ hclid aid
  have hsave : savePolygonsAction db floorId polys =
      ⟨(db.map (clearStep floorId)).map fun a =>
          (polys.takeWhile fun p =>
            p.apartmentId == "" || rowExists db p.apartmentId).foldl
            writeStep a,
        polys.all fun p => p.apartmentId == "" || rowExists db p.apartmentId⟩ := by
    show polys.foldl writePoly ⟨db.map (clearStep floorId), true⟩ = _
    rw [foldl_writePoly_characterization]
    simp only [executedWrites, hre]
  have hgetk : ∀ g : Apartment → Apartment,
      ((db.map (clearStep floorId)).map g)[k]? =
        some (g (clearStep floorId (db.get ⟨k, hk⟩))) := by
    intro g
    rw [List.getElem?_map, List.getElem?_map, List.getElem?_eq_getElem hk]
    rfl
  refine ⟨?_, ?_, ?_, ?_⟩
  · rw [hsave]
    simp [List.length_map]
  · intro hnone
    have hfold : (polys.takeWhile fun p =>
        p.apartmentId == "" || rowExists db p.apartmentId).foldl writeStep
          (clearStep floorId (db.get ⟨k, hk⟩)) =
        clearStep floorId (db.get ⟨k, hk⟩) := by
      apply foldl_writeStep_not_linked
      intro p hp
      rw [hclid]
      exact hnone p ((List.takeWhile_sublist _).subset hp)
    constructor
    · intro hfloor
      rw [hsave]
      show ((db.map (clearStep floorId)).map _)[k]? = _
      rw [hgetk, hfold]
      unfold clearStep
      rw [if_pos hfloor]
    · intro hfloor
      rw [hsave]
      show ((db.map (clearStep floorId)).map _)[k]? = _
      rw [hgetk, hfold]
      unfold clearStep
      rw [if_neg hfloor]
  · intro hall
    have hallb : (polys.all fun p =>
        p.apartmentId == "" || rowExists db p.apartmentId) = true := by
      rw [List.all_eq_true]
      intro p hp
      by_cases he : p.apartmentId = ""
      · simp [he]
      · simp [hall p hp he]
    have htw : (polys.takeWhile fun p =>
        p.apartmentId == "" || rowExists db p.apartmentId) = polys := by
      rw [List.takeWhile_eq_self_iff]
      exact List.all_eq_true.mp hallb
    constructor
    · rw [hsave]
      exact hallb
    · intro p hp hne hid huniq
      rw [hsave]
      show ((db.map (clearStep floorId)).map _)[k]? = _
      rw [hgetk, htw]
      have hlink := foldl_writeStep_linked polys
        (clearStep floorId (db.get ⟨k, hk⟩)) p hp hne
        (by rw [hclid]; exact hid)
        (by rw [hclid]; exact huniq)
      rw [hlink]
      unfold clearStep
      split_ifs <;> rfl
  · rw [hsave]
    show (polys.all fun p =>
        p.apartmentId == "" || rowExists db p.apartmentId) = false ↔ _
    rw [← Bool.not_eq_true, List.all_eq_true]
    push_neg
    constructor
    · rintro ⟨p, hp, hc⟩
      refine ⟨p, hp, ?_, ?_⟩
      · intro he
        exact hc (by simp [he])
      · rcases Bool.eq_false_or_eq_true (rowExists db p.apartmentId) with h | h
        · exact absurd (by simp [h]) hc
        · exact h
    · rintro ⟨p, hp, hne, hrow⟩
      exact ⟨p, hp, by simp [hrow, hne]⟩

/-- A concrete four-row apartment table used to exercise the save action:
three rows on floor `"f1"`, one on floor `"f2"`, all with stale polygon
data. -/
def sampleDb : List Apartment :=
  [⟨"a1", "f1", some [⟨0, 0⟩]⟩,
    ⟨"a2", "f1", some [⟨1, 0⟩]⟩,
    ⟨"a3", "f1", some [⟨0, 1⟩]⟩,
    ⟨"b1", "f2", some [⟨1, 1⟩]⟩]

/-- The polygon list saved in the witness: one polygon linked to `"a1"`,
one unlinked. -/
def samplePolySave : List DrawnPolygon :=
  [⟨"a1", [⟨0, 0⟩, ⟨0, 1/2⟩, ⟨1/2, 1/2⟩]⟩, ⟨"", [⟨1, 1⟩, ⟨1, 0⟩, ⟨0, 0⟩]⟩]

/-- The polygon list for the C8 counterexample: the first polygon links the
missing id `"ghost"`, the second links the existing row `"a1"`. -/
def ghostPolys : List DrawnPolygon :=
  [⟨"ghost", [⟨0, 0⟩, ⟨0, 1⟩, ⟨1, 1⟩]⟩,
    ⟨"a1", [⟨0, 0⟩, ⟨0, 1/2⟩, ⟨1/2, 1/2⟩]⟩]

/-- C8 counterexample.  The claim says every polygon with a non-empty linked
entity id is written; but when an earlier polygon links an id matching no
row, that `prisma.update` throws `P2025` and aborts the loop: saving
`ghostPolys` over `sampleDb` leaves row `"a1"` cleared (`polygonData =
none`) and reports failure, even though the second polygon carries the
non-empty id `"a1"` and that row exists. -/
theorem save_polygons_abort_counterexample :
    (savePolygonsAction sampleDb "f1" ghostPolys).ok = false ∧
      (savePolygonsAction sampleDb "f1" ghostPolys).db[0]? =
        some { sampleDb.get ⟨0, by norm_num [sampleDb]⟩ with
          polygonData := none } ∧
      ghostPolys[1]? = some ⟨"a1", [⟨0, 0⟩, ⟨0, 1/2⟩, ⟨1/2, 1/2⟩]⟩ ∧
      rowExists sampleDb "a1" = true ∧
      rowExists sampleDb "ghost" = false :=
  ⟨rfl, rfl, rfl, rfl, rfl⟩

/-- Witness for `save_polygons_clear_then_write`: saving `samplePolySave`
(whose only non-empty link `"a1"` resolves) over `sampleDb` for floor
`"f1"` succeeds, writes row `"a1"`, clears the unlinked row `"a2"` (same
floor), and leaves row `"b1"` (other floor) untouched. -/
theorem save_polygons_clear_then_write_witness :
    (savePolygonsAction sampleDb "f1" samplePolySave).db.length =
      sampleDb.length ∧
    (savePolygonsAction sampleDb "f1" samplePolySave).ok = true ∧
    (savePolygonsAction sampleDb "f1" samplePolySave).db[0]? =
      some { sampleDb.get ⟨0, by norm_num [sampleDb]⟩ with
        polygonData := some [⟨0, 0⟩, ⟨0, 1/2⟩, ⟨1/2, 1/2⟩] } ∧
    (savePolygonsAction sampleDb "f1" samplePolySave).db[1]? =
      some { sampleDb.get ⟨1, by norm_num [sampleDb]⟩ with
        polygonData := none } ∧
    (savePolygonsAction sampleDb "f1" samplePolySave).db[3]? =
      some (sampleDb.get ⟨3, by norm_num [sampleDb]⟩) := by
  have hall : ∀ p ∈ samplePolySave, p.apartmentId ≠ "" →
      rowExists sampleDb p.apartmentId = true := by
    intro p hp hne
    simp only [samplePolySave, List.mem_cons, List.not_mem_nil,
      or_false] at hp
    rcases hp with h | h
    · rw [h]
      decide
    · rw [h] at hne
      exact absurd rfl hne
  have hnm1 : ∀ p ∈ samplePolySave, p.apartmentId = "" ∨
      p.apartmentId ≠ (sampleDb.get ⟨1, by norm_num [sampleDb]⟩).id := by
    intro p hpmem
    simp only [samplePolySave, List.mem_cons, List.not_mem_nil,
      or_false] at hpmem
    rcases hpmem with h | h
    · exact Or.inr (by rw [h]; decide)
    · exact Or.inl (by rw [h])
  have hnm3 : ∀ p ∈ samplePolySave, p.apartmentId = "" ∨
      p.apartmentId ≠ (sampleDb.get ⟨3, by norm_num [sampleDb]⟩).id := by
    intro p hpmem
    simp only [samplePolySave, List.mem_cons, List.not_mem_nil,
      or_false] at hpmem
    rcases hpmem with h | h
    · exact Or.inr (by rw [h]; decide)
    · exact Or.inl (by rw [h])
  refine ⟨(save_polygons_clear_then_write sampleDb "f1" samplePolySave 0
      (by norm_num [sampleDb])).1,
    ((save_polygons_clear_then_write sampleDb "f1" samplePolySave 0
      (by norm_num [sampleDb])).2.2.1 hall).1,
    ((save_polygons_clear_then_write sampleDb "f1" samplePolySave 0
      (by norm_num [sampleDb])).2.2.1 hall).2
      ⟨"a1", [⟨0, 0⟩, ⟨0, 1/2⟩, ⟨1/2, 1/2⟩]⟩ (by simp [samplePolySave])
      (by decide) (by decide)
      (by
        intro q hq hqid
        simp only [samplePolySave, List.mem_cons, List.not_mem_nil,
          or_false] at hq
        rcases hq with h | h
        · exact h
        · rw [h] at hqid
          exact absurd hqid (by decide)),
    ((save_polygons_clear_then_write sampleDb "f1" samplePolySave 1
      (by norm_num [sampleDb])).2.1 hnm1).1 (by decide),
    ((save_polygons_clear_then_write sampleDb "f1" samplePolySave 3
      (by norm_num [sampleDb])).2.1 hnm3).2 (by decide)⟩

end Vizor
